import Mathlib

/-!
Verification development for the DjangoStorage repository.

The repository exposes a concurrency-safe file-storage abstraction over two
backends (`LocalFileStorage` in src/storage/localfs_storage.py and
`GlusterFSStorage` in src/storage/glusterfs_storage.py), both mixing in the
per-path lock protocol of `ResumableWebDav` (src/storage/webdav.py).

This file shallowly embeds the data model and the operations:

* the shared Django cache (the distributed lock table) is an association
  list from path to owner string; Python truthiness of a cached string is
  modelled by `pyTruthy` (the empty string is falsy);
* the storage backend volume is a record of files (path to byte list),
  directories, and paths on which node creation raises `PermissionError`
  (the only backend-error channel the spec's section 7 assigns a behaviour
  to, namely "unexpected backend error during collection creation");
* every mutating operation returns its result (an `Except` capturing an
  uncaught Python exception), the updated cache and volume, and a trace of
  lock/IO events used for the lock-discipline claims.

Machine strings and integers carry no overflow here, so paths are plain
`String` and sizes plain `Nat`.
-/

/-- Byte strings are lists of byte values. -/
abbrev Bytes := List Nat

/-- The shared lock table (the Django cache): path to owner entries. -/
abbrev Cache := List (String × String)

/-- Association-list lookup by key (first match wins). -/
def alGet {α : Type} : List (String × α) → String → Option α
  | [], _ => none
  | (k', v) :: rest, k => if k = k' then some v else alGet rest k

/-- Django `cache.get(key)`: the stored value, or `none` when absent. -/
def cacheGet (c : Cache) (k : String) : Option String :=
  alGet c k

/-- Django `cache.delete(key)`: drop the entry for `key`. -/
def cacheDelete (c : Cache) (k : String) : Cache :=
  c.filter (fun kv => kv.1 ≠ k)

/-- Django `cache.set(key, value, ttl)`: store `value` under `key`.  The TTL
is not modelled beyond the entry being present until deleted or replaced. -/
def cacheSet (c : Cache) (k v : String) : Cache :=
  (k, v) :: cacheDelete c k

/-- Python truthiness of a cache lookup result: `None` and the empty string
are falsy, every other string is truthy. -/
def pyTruthy : Option String → Bool
  | none => false
  | some s => if s = "" then false else true

/-- Uncaught Python exceptions of the embedded operations. -/
inductive PyErr where
  /-- `TypeError`, e.g. `os.open(path, 'r')` with string flags. -/
  | typeError
  /-- `AttributeError`, e.g. reading an attribute the object lacks. -/
  | attrError
  /-- `IOError` / `IsADirectoryError` and kindred OS errors. -/
  | ioError
  /-- `PermissionError` from node creation on a protected path. -/
  | permError
  /-- `FileNotFoundError`. -/
  | fileNotFound
  /-- The collision-retry loop exceeded its bound (models divergence of the
  unbounded `while True` retry in the source). -/
  | fuelOut
deriving DecidableEq, Repr

/-- Events recorded by the embedded operations, in order of occurrence. -/
inductive Ev where
  /-- Entering `caches['default'].lock(key)` (named scoped mutex). -/
  | acq (key : String)
  /-- Leaving `caches['default'].lock(key)`. -/
  | rel (key : String)
  /-- A read-only backend access (exists / stat probes) of `path`. -/
  | ioR (path : String)
  /-- A mutating backend access (create/write/remove/copy/mknod) of `path`. -/
  | ioW (path : String)
  /-- `cache.set(path, owner, ...)` on the per-path ownership entry. -/
  | cset (path : String) (owner : String)
  /-- `cache.delete(path)` on the per-path ownership entry. -/
  | cdel (path : String)
deriving DecidableEq, Repr

/-- The backend volume: regular files with contents, directories, and the
paths on which node creation raises `PermissionError`. -/
structure Vol where
  files : List (String × Bytes)
  dirs : List String
  denied : List String
deriving DecidableEq, Repr

/-- Contents of the regular file at `p`, when one exists. -/
def volGet (v : Vol) (p : String) : Option Bytes :=
  alGet v.files p

/-- Create or overwrite the regular file at `p` with `data`. -/
def volSetFile (v : Vol) (p : String) (data : Bytes) : Vol :=
  ⟨(p, data) :: v.files.filter (fun kv => kv.1 ≠ p), v.dirs, v.denied⟩

/-- Remove the regular file at `p`. -/
def volRemove (v : Vol) (p : String) : Vol :=
  ⟨v.files.filter (fun kv => kv.1 ≠ p), v.dirs, v.denied⟩

/-- `os.path.lexists` / `volume.exists`: a file or a directory is at `p`. -/
def volExists (v : Vol) (p : String) : Bool :=
  (volGet v p).isSome || v.dirs.contains p

/-- `os.path.isdir` / `volume.isdir`. -/
def volIsDir (v : Vol) (p : String) : Bool :=
  v.dirs.contains p

/-- Node creation at `p` raises `PermissionError`. -/
def volDenied (v : Vol) (p : String) : Bool :=
  v.denied.contains p

/-- The configured base location of both storages (Django
`Storage.path(name)` joins the logical name against it). -/
def baseLoc : String := "/m"

/-- `self.path(name)`: resolve a logical name to the backend path. -/
def pathOf (name : String) : String :=
  baseLoc ++ "/" ++ name

/-- The reader-keyed named lock, `'{}_{}'.format(full_path, 'reader')`. -/
def rKey (p : String) : String := p ++ "_reader"

/-- The writer-keyed named lock, `'{}_{}'.format(full_path, 'writer')`. -/
def wKey (p : String) : String := p ++ "_writer"

/-- `ResumableWebDav.is_locked` (src/storage/webdav.py lines 14-23):
`cache.get(fpath) is not None`. -/
def wd_is_locked (c : Cache) (fpath : String) : Bool :=
  (cacheGet c fpath).isSome

/-- `ResumableWebDav.lock` (src/storage/webdav.py lines 25-41).  The source
tests `if caches['default'].get(fpath):` — a truthiness test on the existing
entry — and only then stores the caller as owner; otherwise it reports the
current entry with `False`.  Returns the result pair, the updated cache, and
the ownership events emitted. -/
def wd_lock (c : Cache) (fpath user : String) :
    (Bool × Option String) × Cache × List Ev :=
  if pyTruthy (cacheGet c fpath) then
    ((true, some user), cacheSet c fpath user, [Ev.cset fpath user])
  else
    ((false, cacheGet c fpath), c, [])

/-- `ResumableWebDav.unlock` (src/storage/webdav.py lines 43-54): reads the
stored owner, deletes the entry only when it is truthy and equals the
supplied user, and always returns the previously stored owner. -/
def wd_unlock (c : Cache) (fpath user : String) :
    Option String × Cache × List Ev :=
  let check := cacheGet c fpath
  if pyTruthy check = true ∧ check = some user then
    (check, cacheDelete c fpath, [Ev.cdel fpath])
  else
    (check, c, [])

/-- Characters strictly before the last `'/'`, or `none` when no slash. -/
def dirnameChars : List Char → Option (List Char)
  | [] => none
  | c :: cs =>
    match dirnameChars cs with
    | some rest => some (c :: rest)
    | none => if c = '/' then some [] else none

/-- `os.path.dirname`. -/
def dirname (p : String) : String :=
  match dirnameChars p.data with
  | some cs => String.mk cs
  | none => ""

/-- Split at the last `'.'`: root and extension (dot included), or `none`
when the string has no dot. -/
def splitExtChars : List Char → Option (List Char × List Char)
  | [] => none
  | c :: cs =>
    match splitExtChars cs with
    | some (r, e) => some (c :: r, e)
    | none => if c = '.' then some ([], c :: cs) else none

/-- `name.replace('\\', '/')`: the single-character replacement performed on
the stored name before `_save` returns it, as a character map. -/
def slashName (s : String) : String :=
  String.mk (s.data.map (fun ch => if ch = '\\' then '/' else ch))

/-- `os.path.splitext`. -/
def splitExt (s : String) : String × String :=
  match splitExtChars s.data with
  | some (r, e) => (String.mk r, String.mk e)
  | none => (s, "")

/-- The i-th disambiguation candidate for a taken name: the numeric suffix
is inserted before the extension, so `report.txt` yields `report_1.txt`. -/
def availCand (name : String) (i : Nat) : String :=
  (splitExt name).1 ++ "_" ++ toString i ++ (splitExt name).2

/-- Bounded search for the first free candidate, counting from `i`. -/
def availAux (v : Vol) (name : String) : Nat → Nat → Option String
  | _, 0 => none
  | i, fuel + 1 =>
    if volExists v (pathOf (availCand name i)) = false then
      some (availCand name i)
    else
      availAux v name (i + 1) fuel

/-- Modelled from the spec: Django `Storage.get_available_name`, which both
save paths call, is not part of src/.  Section 4.2 describes it as
deterministic collision-avoidance — "when a target name is taken, derive a
new candidate (e.g., numeric suffix) and retry; must never return a name
already observed to exist" — and the section 8 scenario expects
`report.txt` to disambiguate to `report_1.txt`.  A free name is returned
unchanged; the candidate search is fuel-bounded, `none` modelling an
exhausted bound. -/
def availableName (v : Vol) (name : String) (fuel : Nat) : Option String :=
  if volExists v (pathOf name) = false then some name
  else availAux v name 1 fuel

/-- The content argument of a save, by the Python attributes the source
dispatches on: `chunked` has a `chunks` attribute (an ordinary Django
`File`/`ContentFile`), `bytes` is a raw Python bytes object, `filelike` has
neither `chunks` nor `temporary_file_path`, and `tempfile` has a
`temporary_file_path`. -/
inductive Content where
  | chunked (data : Bytes)
  | bytes (data : Bytes)
  | filelike (data : Bytes)
  | tempfile (data : Bytes)
deriving DecidableEq, Repr

/-- The byte payload of a content object. -/
def contentData : Content → Bytes
  | .chunked d => d
  | .bytes d => d
  | .filelike d => d
  | .tempfile d => d

/-- The exclusive create-and-retry loop of Django's save: attempt an
exclusive create (which fails when the path exists), and on a collision
derive an alternative name and retry, bounded by fuel. -/
def djangoSaveLoop (v : Vol) (data : Bytes) : String → Nat →
    Except PyErr (String × Vol)
  | _, 0 => .error .fuelOut
  | name, fuel + 1 =>
    if volExists v (pathOf name) then
      match availableName v name (v.files.length + 1) with
      | none => .error .fuelOut
      | some n' => djangoSaveLoop v data n' fuel
    else
      .ok (name, volSetFile v (pathOf name) data)

/-- Modelled from the spec: Django `FileSystemStorage._save`, which
`LocalFileStorage.save` delegates to (src/storage/localfs_storage.py line
54), is not part of src/.  Section 4.3 steps 2-5: ensure the parent
directory exists, creating it when absent; fail with `NotADirectoryError`
when the parent exists and is not a directory; then loop an exclusive
create of the target, deriving an alternative name via the available-name
mechanism on each create-collision, and return the finally stored name. -/
def djangoFsSave (v : Vol) (name : String) (data : Bytes) (fuel : Nat) :
    Except PyErr String × Vol × List Ev :=
  let dir := dirname (pathOf name)
  let v1 : Vol :=
    if volExists v dir = false then ⟨v.files, dir :: v.dirs, v.denied⟩ else v
  let t1 : List Ev :=
    if volExists v dir = false then [Ev.ioW dir] else []
  if volIsDir v1 dir = false then
    (.error .ioError, v1, t1)
  else
    match djangoSaveLoop v1 data name fuel with
    | .error e => (.error e, v1, t1)
    | .ok (n', v2) => (.ok n', v2, t1 ++ [Ev.ioW (pathOf n')])

/-- The outcome of a stateful operation: the Python return value (or the
uncaught exception), the lock table and volume after the call, and the
event trace. -/
structure Out (α : Type) where
  res : Except PyErr α
  cache : Cache
  vol : Vol
  tr : List Ev

/-- `LocalFileStorage.save` (src/storage/localfs_storage.py lines 37-58).
Content with a `chunks` attribute skips the whole body — `rval` is never
assigned — so the call returns `None` without acquiring locks or touching
the backend.  Otherwise, under the reader+writer named locks, the name is
first disambiguated by `get_available_name`; raw `bytes` content is then
written with a truncating `open(path, 'wb')` while `rval` stays `None`, and
any other content is wrapped in a Django `File` and passed to Django's
`_save`, whose returned stored name becomes `rval`. -/
def lfs_save (c : Cache) (v : Vol) (name : String) (content : Content)
    (fuel : Nat) : Out (Option String) :=
  let p := pathOf name
  match content with
  | .chunked _ => ⟨.ok none, c, v, []⟩
  | _ =>
    let tA := [Ev.acq (rKey p), Ev.acq (wKey p)]
    let tZ := [Ev.rel (wKey p), Ev.rel (rKey p)]
    match availableName v name fuel with
    | none => ⟨.error .fuelOut, c, v, tA ++ tZ⟩
    | some n1 =>
      match content with
      | .bytes data =>
        ⟨.ok none, c, volSetFile v (pathOf n1) data,
          tA ++ [Ev.ioW (pathOf n1)] ++ tZ⟩
      | _ =>
        match djangoFsSave v n1 (contentData content) fuel with
        | (.ok n', v', t) => ⟨.ok (some n'), c, v', tA ++ t ++ tZ⟩
        | (.error e, v', t) => ⟨.error e, c, v', tA ++ t ++ tZ⟩

/-- `LocalFileStorage.move` (src/storage/localfs_storage.py lines 60-76):
`os.rename` under the reader+writer named locks; a missing source raises
`FileNotFoundError`, which propagates after the scoped locks unwind. -/
def lfs_move (c : Cache) (v : Vol) (name newName : String) : Out Bool :=
  let p := pathOf name
  let np := pathOf newName
  let tA := [Ev.acq (rKey p), Ev.acq (wKey p)]
  let tZ := [Ev.rel (wKey p), Ev.rel (rKey p)]
  match volGet v p with
  | some data =>
    ⟨.ok true, c, volSetFile (volRemove v p) np data, tA ++ [Ev.ioW np] ++ tZ⟩
  | none => ⟨.error .fileNotFound, c, v, tA ++ tZ⟩

/-- `LocalFileStorage.append` (src/storage/localfs_storage.py lines 78-105).
The guard is `if self.is_locked(full_path) is False or cache.get(full_path)
is not user:` — the Python identity test `is not` is modelled as
inequality — so the body runs exactly when the path is free or the stored
owner differs from the caller.  The body takes the reader+writer named
locks, calls `self.lock` (which overwrites a truthy existing owner), opens
the file in append mode (creating it when missing), writes, and unlocks in
a `finally`.  When the caller itself holds the lock the call returns
`False` untouched. -/
def lfs_append (c : Cache) (v : Vol) (name : String) (data : Bytes)
    (user : String) : Out Bool :=
  let p := pathOf name
  if wd_is_locked c p = false ∨ cacheGet c p ≠ some user then
    let tA := [Ev.acq (rKey p), Ev.acq (wKey p)]
    let (_, c1, tL) := wd_lock c p user
    let v' := volSetFile v p ((volGet v p).getD [] ++ data)
    let (_, c2, tU) := wd_unlock c1 p user
    ⟨.ok true, c2, v',
      tA ++ tL ++ [Ev.ioW p] ++ tU ++ [Ev.rel (wKey p), Ev.rel (rKey p)]⟩
  else ⟨.ok false, c, v, []⟩

/-- `LocalFileStorage.mkcollection` (src/storage/localfs_storage.py lines
107-127): when the path is free in the lock table and does not exist, the
source takes only the writer-keyed named lock, calls `self.lock`, runs
`os.mknod` (whose `PermissionError` would propagate — only the `finally`
unlock intervenes), and returns a bare boolean. -/
def lfs_mkcollection (c : Cache) (v : Vol) (name : String) (user : String) :
    Out Bool :=
  let p := pathOf name
  if wd_is_locked c p = false then
    if volExists v p = false then
      let (_, c1, tL) := wd_lock c p user
      if volDenied v p then
        let (_, c2, tU) := wd_unlock c1 p user
        ⟨.error .permError, c2, v,
          [Ev.ioR p, Ev.acq (wKey p)] ++ tL ++ tU ++ [Ev.rel (wKey p)]⟩
      else
        let (_, c2, tU) := wd_unlock c1 p user
        ⟨.ok true, c2, volSetFile v p [],
          [Ev.ioR p, Ev.acq (wKey p)] ++ tL ++ [Ev.ioW p] ++ tU
            ++ [Ev.rel (wKey p)]⟩
    else ⟨.ok false, c, v, [Ev.ioR p]⟩
  else ⟨.ok false, c, v, []⟩

/-- `LocalFileStorage.delete` (src/storage/localfs_storage.py lines
150-165): the existence probe precedes the locks; `os.remove` on a
directory raises. -/
def lfs_delete (c : Cache) (v : Vol) (name : String) : Out Bool :=
  let p := pathOf name
  if volExists v p then
    let tA := [Ev.ioR p, Ev.acq (rKey p), Ev.acq (wKey p)]
    let tZ := [Ev.rel (wKey p), Ev.rel (rKey p)]
    match volGet v p with
    | some _ => ⟨.ok true, c, volRemove v p, tA ++ [Ev.ioW p] ++ tZ⟩
    | none => ⟨.error .ioError, c, v, tA ++ tZ⟩
  else ⟨.ok false, c, v, [Ev.ioR p]⟩

/-- `LocalFileStorage.safe_read_chunk` (src/storage/localfs_storage.py
lines 185-214).  When the file exists the source executes
`fd = os.open(full_path, 'r')`: `os.open` requires integer flags, so this
raises `TypeError` before any offset handling (and the later `fd.lseek` /
`fd.read` method calls on an integer descriptor could never succeed
either).  When the path does not exist it returns `(None, 0)`. -/
def lfs_safe_read_chunk (v : Vol) (name : String) (offset length : Nat) :
    Except PyErr (Option Bytes × Nat) :=
  if volExists v (pathOf name) then .error .typeError
  else .ok (none, 0)

/-- The download generator loop shared by both backends: while the offset
is below the snapshotted size, read a chunk at the offset, advance by the
bytes read, and yield `(chunk, bytesRead, newOffset)`.  The fuel bounds the
number of iterations; the callers supply fuel exceeding the file size. -/
def lfsDownloadLoop (v : Vol) (name : String) (maxBuf fsize : Nat) :
    Nat → Nat → Except PyErr (List (Option Bytes × Nat × Nat))
  | offset, 0 =>
    if offset < fsize then .error .fuelOut else .ok []
  | offset, fuel + 1 =>
    if offset < fsize then
      match lfs_safe_read_chunk v name offset maxBuf with
      | .error e => .error e
      | .ok (buf, l) =>
        match lfsDownloadLoop v name maxBuf fsize (offset + l) fuel with
        | .error e => .error e
        | .ok rest => .ok ((buf, l, offset + l) :: rest)
    else .ok []

/-- `LocalFileStorage.download` (src/storage/localfs_storage.py lines
216-234): snapshot the size once (`os.path.getsize` raises
`FileNotFoundError` for a missing path), then iterate `safe_read_chunk`
from offset 0. -/
def lfs_download (v : Vol) (name : String) (maxBuf : Nat) :
    Except PyErr (List (Option Bytes × Nat × Nat)) :=
  match volGet v (pathOf name) with
  | none => .error .fileNotFound
  | some data => lfsDownloadLoop v name maxBuf data.length 0 (data.length + 1)

/-- The create loop of `GlusterFSStorage._save` (src/storage/
glusterfs_storage.py lines 151-177).  Content with a
`temporary_file_path` is moved into place by `file_move_safe`, which raises
`FileExistsError` when the destination exists, triggering the
get-available-name retry (the source reassigns `name` and `full_path`
before retrying).  Streamed content evaluates `self.OS_OPEN_FLAGS`, an
attribute neither `GlusterFSStorage` nor its bases `Storage` and
`ResumableWebDav` define, raising `AttributeError`.  Besides the result the
loop reports the value `full_path` holds on exit, which the caller's
`finally` clause deletes from the cache. -/
def gfsSaveLoop (v : Vol) (content : Content) : String → Nat →
    Except PyErr (String × Vol) × String × List Ev
  | name, 0 => (.error .fuelOut, pathOf name, [])
  | name, fuel + 1 =>
    match content with
    | .tempfile data =>
      if volExists v (pathOf name) then
        match availableName v name (v.files.length + 1) with
        | none => (.error .fuelOut, pathOf name, [Ev.ioR (pathOf name)])
        | some n' =>
          let (r, fp, t) := gfsSaveLoop v content n' fuel
          (r, fp, Ev.ioR (pathOf name) :: t)
      else
        (.ok (name, volSetFile v (pathOf name) data), pathOf name,
          [Ev.ioW (pathOf name)])
    | _ => (.error .attrError, pathOf name, [])

/-- `GlusterFSStorage._save` (src/storage/glusterfs_storage.py lines
109-185).  Under the reader+writer named locks, when the ownership entry
for the resolved path is absent the source takes a scoped `cache.lock` on
the raw path, stores the marker `'storage'`, and proceeds: a missing parent
directory leads to `self.volume.makedirs(...)` — but the class only
defines the name-mangled `self.__volume`, so this raises `AttributeError`;
a parent that is not a directory raises `IOError`; otherwise the create
loop runs.  The `finally` clause deletes the ownership entry at the
*current* value of `full_path`, so after a collision renamed the target the
marker set on the originally resolved path survives the call.  When the
ownership entry is present the call returns `(False,
cache.get(full_path))`. -/
def gfs_save (c : Cache) (v : Vol) (name : String) (content : Content)
    (fuel : Nat) : Out (Bool × Option String) :=
  let p := pathOf name
  let tA := [Ev.acq (rKey p), Ev.acq (wKey p)]
  let tZ := [Ev.rel (wKey p), Ev.rel (rKey p)]
  if (cacheGet c p).isSome = false then
    let c1 := cacheSet c p "storage"
    let tM := [Ev.acq p, Ev.cset p "storage", Ev.rel p]
    let dir := dirname p
    if volExists v dir = false then
      ⟨.error .attrError, cacheDelete c1 p, v, tA ++ tM ++ [Ev.cdel p] ++ tZ⟩
    else if volIsDir v dir = false then
      ⟨.error .ioError, cacheDelete c1 p, v, tA ++ tM ++ [Ev.cdel p] ++ tZ⟩
    else
      match gfsSaveLoop v content name fuel with
      | (.ok (n', v'), fp, t) =>
        ⟨.ok (true, some (slashName n')), cacheDelete c1 fp, v',
          tA ++ tM ++ t ++ [Ev.cdel fp] ++ tZ⟩
      | (.error e, fp, t) =>
        ⟨.error e, cacheDelete c1 fp, v, tA ++ tM ++ t ++ [Ev.cdel fp] ++ tZ⟩
  else
    ⟨.ok (false, cacheGet c p), c, v, tA ++ tZ⟩

/-- The create loop with the undefined references repaired: an exclusive
create that fails exactly when the target exists, for every content kind. -/
def gfsFixedLoop (v : Vol) (data : Bytes) : String → Nat →
    Except PyErr (String × Vol) × String × List Ev
  | name, 0 => (.error .fuelOut, pathOf name, [])
  | name, fuel + 1 =>
    if volExists v (pathOf name) then
      match availableName v name (v.files.length + 1) with
      | none => (.error .fuelOut, pathOf name, [Ev.ioR (pathOf name)])
      | some n' =>
        let (r, fp, t) := gfsFixedLoop v data n' fuel
        (r, fp, Ev.ioR (pathOf name) :: t)
    else
      (.ok (name, volSetFile v (pathOf name) data), pathOf name,
        [Ev.ioW (pathOf name)])

/-- Modelled from the spec: the save algorithm of section 4.3 as
`GlusterFSStorage._save` intends it — the exclusive-create flags
(`OS_OPEN_FLAGS`, section 6 lists them as create + exclusive + write-only)
and the volume handle that the source references without defining are taken
as given: a missing parent directory is created by `makedirs`, and step 4's
exclusive create-and-write backs the collision-retry loop.  Every other
step follows `gfs_save`. -/
def gfs_save_fixed (c : Cache) (v : Vol) (name : String) (content : Content)
    (fuel : Nat) : Out (Bool × Option String) :=
  let p := pathOf name
  let tA := [Ev.acq (rKey p), Ev.acq (wKey p)]
  let tZ := [Ev.rel (wKey p), Ev.rel (rKey p)]
  if (cacheGet c p).isSome = false then
    let c1 := cacheSet c p "storage"
    let tM := [Ev.acq p, Ev.cset p "storage", Ev.rel p]
    let dir := dirname p
    let v1 : Vol :=
      if volExists v dir = false then ⟨v.files, dir :: v.dirs, v.denied⟩ else v
    let tD : List Ev :=
      if volExists v dir = false then [Ev.ioW dir] else []
    if volIsDir v1 dir = false then
      ⟨.error .ioError, cacheDelete c1 p, v1, tA ++ tM ++ tD ++ [Ev.cdel p] ++ tZ⟩
    else
      match gfsFixedLoop v1 (contentData content) name fuel with
      | (.ok (n', v'), fp, t) =>
        ⟨.ok (true, some (slashName n')), cacheDelete c1 fp, v',
          tA ++ tM ++ tD ++ t ++ [Ev.cdel fp] ++ tZ⟩
      | (.error e, fp, t) =>
        ⟨.error e, cacheDelete c1 fp, v1, tA ++ tM ++ tD ++ t ++ [Ev.cdel fp] ++ tZ⟩
  else
    ⟨.ok (false, cacheGet c p), c, v, tA ++ tZ⟩

/-- `GlusterFSStorage.delete` (src/storage/glusterfs_storage.py lines
187-209): under the reader+writer named locks, when the ownership entry is
absent the source calls `self.lock` (a no-op on a free path, given the
`lock` polarity), removes the path if it exists (`volume.remove` raises on
a directory), unlocks in a `finally`, and returns `True`; when the entry is
present it returns `False`. -/
def g_delete (c : Cache) (v : Vol) (name : String) (user : String) :
    Out Bool :=
  let p := pathOf name
  let tA := [Ev.acq (rKey p), Ev.acq (wKey p)]
  let tZ := [Ev.rel (wKey p), Ev.rel (rKey p)]
  if wd_is_locked c p = false then
    let (_, c1, tL) := wd_lock c p user
    match volGet v p with
    | some _ =>
      let (_, c2, tU) := wd_unlock c1 p user
      ⟨.ok true, c2, volRemove v p,
        tA ++ tL ++ [Ev.ioR p, Ev.ioW p] ++ tU ++ tZ⟩
    | none =>
      if volIsDir v p then
        let (_, c2, tU) := wd_unlock c1 p user
        ⟨.error .ioError, c2, v, tA ++ tL ++ [Ev.ioR p] ++ tU ++ tZ⟩
      else
        let (_, c2, tU) := wd_unlock c1 p user
        ⟨.ok true, c2, v, tA ++ tL ++ [Ev.ioR p] ++ tU ++ tZ⟩
  else ⟨.ok false, c, v, tA ++ tZ⟩

/-- `GlusterFSStorage.move` (src/storage/glusterfs_storage.py lines
308-325): no named locks at all; the body runs only when the ownership
entry is *present* (`if self.is_locked(full_path):`), calls `self.lock`
(which overwrites a truthy owner with the caller), copies source to
destination with `copy2` — the source is kept — and unlocks in a
`finally`.  The function returns `None` in every case. -/
def g_move (c : Cache) (v : Vol) (name newName : String) (user : String) :
    Out Unit :=
  let p := pathOf name
  let np := pathOf newName
  if wd_is_locked c p then
    let (_, c1, tL) := wd_lock c p user
    match volGet v p with
    | some data =>
      let (_, c2, tU) := wd_unlock c1 p user
      ⟨.ok (), c2, volSetFile v np data, tL ++ [Ev.ioR p, Ev.ioW np] ++ tU⟩
    | none =>
      let (_, c2, tU) := wd_unlock c1 p user
      ⟨.error .fileNotFound, c2, v, tL ++ [Ev.ioR p] ++ tU⟩
  else ⟨.ok (), c, v, []⟩

/-- `GlusterFSStorage.append` (src/storage/glusterfs_storage.py lines
327-350): under the reader+writer named locks, when the ownership entry is
absent the source calls `self.lock` (no-op on a free path), opens the file
with `fopen(full_path, 'a+')` (creating it when missing), writes, unlocks
in a `finally`, and returns `True`; when any entry is present — whoever
owns it — it returns `False` without writing. -/
def g_append (c : Cache) (v : Vol) (name : String) (data : Bytes)
    (user : String) : Out Bool :=
  let p := pathOf name
  let tA := [Ev.acq (rKey p), Ev.acq (wKey p)]
  let tZ := [Ev.rel (wKey p), Ev.rel (rKey p)]
  if wd_is_locked c p = false then
    let (_, c1, tL) := wd_lock c p user
    let v' := volSetFile v p ((volGet v p).getD [] ++ data)
    let (_, c2, tU) := wd_unlock c1 p user
    ⟨.ok true, c2, v', tA ++ tL ++ [Ev.ioW p] ++ tU ++ tZ⟩
  else ⟨.ok false, c, v, tA ++ tZ⟩

/-- `GlusterFSStorage.mkcollection` (src/storage/glusterfs_storage.py lines
352-377): the existence probe precedes everything; when the path exists the
call returns `(False, None)`.  Otherwise a `try` encloses the reader+writer
named locks; inside, only when the ownership entry is absent is `mknod`
attempted (so a present entry skips creation yet still yields `(True,
None)`); an exception from creation is captured by the `except` clause and
returned as `(False, errorDetail)` after the scoped locks and the `finally`
unlock unwind. -/
def g_mkcollection (c : Cache) (v : Vol) (name : String) (user : String) :
    Out (Bool × Option String) :=
  let p := pathOf name
  if volExists v p = false then
    let tA := [Ev.ioR p, Ev.acq (rKey p), Ev.acq (wKey p)]
    let tZ := [Ev.rel (wKey p), Ev.rel (rKey p)]
    if wd_is_locked c p = false then
      let (_, c1, tL) := wd_lock c p user
      if volDenied v p then
        let (_, c2, tU) := wd_unlock c1 p user
        ⟨.ok (false, some "PermissionError"), c2, v, tA ++ tL ++ tU ++ tZ⟩
      else
        let (_, c2, tU) := wd_unlock c1 p user
        ⟨.ok (true, none), c2, volSetFile v p [],
          tA ++ tL ++ [Ev.ioW p] ++ tU ++ tZ⟩
    else ⟨.ok (true, none), c, v, tA ++ tZ⟩
  else ⟨.ok (false, none), c, v, [Ev.ioR p]⟩

/-- `GlusterFSStorage.safe_read_chunk` (src/storage/glusterfs_storage.py
lines 414-443): when the path exists, under the reader lock the size is
taken; an offset at or past the size leaves the initial `(None, 0)`, and
otherwise `min(length, fsize - offset)` bytes are read from the offset.
Opening a directory raises. -/
def g_safe_read_chunk (v : Vol) (name : String) (offset length : Nat) :
    Except PyErr (Option Bytes × Nat) :=
  let p := pathOf name
  if volExists v p then
    match volGet v p with
    | none => .error .ioError
    | some data =>
      let fsize := data.length
      if offset < fsize then
        let rlength := fsize - offset
        let l := if rlength < length then rlength else length
        .ok (some ((data.drop offset).take l), l)
      else .ok (none, 0)
  else .ok (none, 0)

/-- The download generator loop of `GlusterFSStorage.download`, fuel-bounded
like `lfsDownloadLoop`. -/
def gDownloadLoop (v : Vol) (name : String) (maxBuf fsize : Nat) :
    Nat → Nat → Except PyErr (List (Option Bytes × Nat × Nat))
  | offset, 0 =>
    if offset < fsize then .error .fuelOut else .ok []
  | offset, fuel + 1 =>
    if offset < fsize then
      match g_safe_read_chunk v name offset maxBuf with
      | .error e => .error e
      | .ok (buf, l) =>
        match gDownloadLoop v name maxBuf fsize (offset + l) fuel with
        | .error e => .error e
        | .ok rest => .ok ((buf, l, offset + l) :: rest)
    else .ok []

/-- `GlusterFSStorage.download` (src/storage/glusterfs_storage.py lines
445-463): snapshot the size once (`volume.getsize` raises for a missing
path), then iterate `safe_read_chunk` from offset 0, advancing by the bytes
read and yielding `(chunk, bytesRead, newOffset)`. -/
def g_download (v : Vol) (name : String) (maxBuf : Nat) :
    Except PyErr (List (Option Bytes × Nat × Nat)) :=
  match volGet v (pathOf name) with
  | none => .error .fileNotFound
  | some data => gDownloadLoop v name maxBuf data.length 0 (data.length + 1)

/-- The named-lock keys acquired by a trace, in order. -/
def acqList (t : List Ev) : List String :=
  t.filterMap (fun e => match e with | .acq k => some k | _ => none)

/-- One step of scoped-lock checking: acquisitions push, a release must
match the innermost held key, anything else is transparent. -/
def stackStep : Option (List String) → Ev → Option (List String)
  | none, _ => none
  | some st, .acq k => some (k :: st)
  | some st, .rel k =>
    match st with
    | k' :: rest => if k = k' then some rest else none
    | [] => none
  | some st, _ => some st

/-- Run the scoped-lock check over a trace; `some []` means every
acquisition was released in properly nested order and nothing stays held. -/
def stackRun (t : List Ev) : Option (List String) :=
  t.foldl stackStep (some [])

/-- Fold step for `mutUnder`: track the held named locks and check each
mutating backend access happens while all keys in `ks` are held. -/
def mutStep (ks : List String) : List String × Bool → Ev → List String × Bool
  | (held, ok), .acq k => (k :: held, ok)
  | (held, ok), .rel k => (held.erase k, ok)
  | (held, ok), .ioW _ => (held, ok && ks.all (fun k => held.contains k))
  | st, _ => st

/-- Every mutating backend access in the trace happens while all the named
locks in `ks` are held. -/
def mutUnder (ks : List String) (t : List Ev) : Bool :=
  (t.foldl (mutStep ks) ([], true)).2

/-- Fold step for `ownNet`: ownership entries the trace set and has not
deleted since. -/
def ownStep : List String → Ev → List String
  | acc, .cset p _ => p :: acc.erase p
  | acc, .cdel p => acc.erase p
  | acc, _ => acc

/-- The per-path ownership entries a trace set and never deleted
afterwards: `[]` means the operation released every entry it set. -/
def ownNet (t : List Ev) : List String :=
  t.foldl ownStep []

/-- A trace containing only backend accesses (no lock or ownership
events). -/
def ioOnly (t : List Ev) : Bool :=
  t.all (fun e => match e with | .ioR _ => true | .ioW _ => true | _ => false)

/-- Concatenation of the chunks yielded by a download iteration (a `None`
buffer contributes no bytes). -/
def joinChunks (L : List (Option Bytes × Nat × Nat)) : Bytes :=
  L.foldr (fun t acc => t.1.getD [] ++ acc) []

/-- Each yielded triple advances the offset by the bytes actually read, and
the chunk holds exactly that many bytes. -/
def stepsOk : Nat → List (Option Bytes × Nat × Nat) → Prop
  | _, [] => True
  | off, (buf, l, noff) :: rest =>
    noff = off + l ∧ (buf.getD []).length = l ∧ stepsOk noff rest

/-- The offset reported by the last yielded triple (the starting offset
when nothing was yielded). -/
def finalOff : Nat → List (Option Bytes × Nat × Nat) → Nat
  | off, [] => off
  | _, (_, _, noff) :: rest => finalOff noff rest

/-- The base volume of the scenarios: the base location exists as a
directory, no files, nothing denied. -/
def v0 : Vol := ⟨[], ["/m"], []⟩

/-- Bytes of `"hello world!"` shortened to a small witness payload. -/
def helloB : Bytes := [104, 101, 108, 108, 111]

/-- A second, different payload. -/
def worldB : Bytes := [119, 111, 114, 108, 100]

/-- A volume already holding `report.txt`, for the collision scenarios. -/
def vC : Vol := ⟨[(pathOf "report.txt", helloB)], ["/m"], []⟩

/-- A faithful `GlusterFSStorage._save` of a temporary-file upload against
the already-existing `report.txt`: the collision path of the source that
renames the target and then deletes the ownership marker at the renamed
path only. -/
def saveLeak : Out (Bool × Option String) :=
  gfs_save [] vC "report.txt" (Content.tempfile worldB) 6

/-- First save of the spec's section 8 scenario, on the repaired save. -/
def save1fx : Out (Bool × Option String) :=
  gfs_save_fixed [] v0 "report.txt" (Content.chunked helloB) 6

/-- Second save of the same requested name with different content,
immediately after `save1fx`. -/
def save2fx : Out (Bool × Option String) :=
  gfs_save_fixed save1fx.cache save1fx.vol "report.txt"
    (Content.chunked worldB) 6

theorem stackStep_pure (st : Option (List String)) (e : Ev)
    (h : (match e with | .ioR _ => true | .ioW _ => true | _ => false) = true) :
    stackStep st e = st := by
  cases st <;> cases e <;> simp_all [stackStep]

theorem stackRun_append_pure (st : Option (List String)) (t : List Ev)
    (h : ioOnly t = true) :
    t.foldl stackStep st = st := by
  induction t generalizing st with
  | nil => rfl
  | cons e t ih =>
    simp only [ioOnly, List.all_cons, Bool.and_eq_true] at h
    simp only [List.foldl_cons, stackStep_pure st e h.1]
    exact ih st (by simpa [ioOnly] using h.2)

theorem acqList_pure (t : List Ev) (h : ioOnly t = true) : acqList t = [] := by
  induction t with
  | nil => rfl
  | cons e t ih =>
    simp only [ioOnly, List.all_cons, Bool.and_eq_true] at h
    cases e <;> simp_all [acqList, ioOnly]

theorem mutStep_fold_pure (ks held : List String) (ok : Bool) (t : List Ev)
    (hks : ∀ k ∈ ks, held.contains k = true) (h : ioOnly t = true) :
    t.foldl (mutStep ks) (held, ok) = (held, ok) := by
  induction t generalizing ok with
  | nil => rfl
  | cons e t ih =>
    simp only [ioOnly, List.all_cons, Bool.and_eq_true] at h
    have ht : ioOnly t = true := by simpa [ioOnly] using h.2
    cases e with
    | ioR p => exact ih ok ht
    | ioW p =>
      simp only [List.foldl_cons, mutStep]
      have : ks.all (fun k => held.contains k) = true :=
        List.all_eq_true.mpr (fun k hk => hks k hk)
      rw [this, Bool.and_true]
      exact ih ok ht
    | acq k => simp at h
    | rel k => simp at h
    | cset p o => simp at h
    | cdel p => simp at h

theorem ownStep_fold_pure (acc : List String) (t : List Ev)
    (h : ioOnly t = true) :
    t.foldl ownStep acc = acc := by
  induction t generalizing acc with
  | nil => rfl
  | cons e t ih =>
    simp only [ioOnly, List.all_cons, Bool.and_eq_true] at h
    have ht : ioOnly t = true := by simpa [ioOnly] using h.2
    cases e <;> simp_all [ownStep]

theorem djangoFsSave_ioOnly (v : Vol) (n : String) (d : Bytes) (fuel : Nat) :
    ioOnly (djangoFsSave v n d fuel).2.2 = true := by
  unfold djangoFsSave
  by_cases hE : volExists v (dirname (pathOf n)) = false
  · simp only [if_pos hE]
    split <;> (try split) <;> simp [ioOnly]
  · simp only [if_neg hE]
    split <;> (try split) <;> simp [ioOnly]

theorem cacheGet_set_self (c : Cache) (k x : String) :
    cacheGet (cacheSet c k x) k = some x := by
  simp [cacheGet, cacheSet, alGet]

theorem sandwichRW (p : String) (t : List Ev) (h : ioOnly t = true) :
    stackRun ([Ev.acq (rKey p), Ev.acq (wKey p)] ++ t ++
      [Ev.rel (wKey p), Ev.rel (rKey p)]) = some [] ∧
    acqList ([Ev.acq (rKey p), Ev.acq (wKey p)] ++ t ++
      [Ev.rel (wKey p), Ev.rel (rKey p)]) = [rKey p, wKey p] ∧
    mutUnder [rKey p, wKey p] ([Ev.acq (rKey p), Ev.acq (wKey p)] ++ t ++
      [Ev.rel (wKey p), Ev.rel (rKey p)]) = true ∧
    ownNet ([Ev.acq (rKey p), Ev.acq (wKey p)] ++ t ++
      [Ev.rel (wKey p), Ev.rel (rKey p)]) = [] := by
  have hs : t.foldl stackStep (some [wKey p, rKey p]) = some [wKey p, rKey p] :=
    stackRun_append_pure _ t h
  have hm : t.foldl (mutStep [rKey p, wKey p]) ([wKey p, rKey p], true) =
      ([wKey p, rKey p], true) := by
    refine mutStep_fold_pure _ _ _ t ?_ h
    intro k hk
    simp only [List.mem_cons, List.not_mem_nil, or_false] at hk
    rcases hk with rfl | rfl <;> simp [List.contains]
  have ha : acqList t = [] := acqList_pure t h
  have ho : t.foldl ownStep [] = [] := ownStep_fold_pure [] t h
  refine ⟨?_, ?_, ?_, ?_⟩
  · simp [stackRun, List.foldl_append, stackStep, hs]
  · simp only [acqList] at ha ⊢
    simp [List.filterMap_append, ha]
  · simp [mutUnder, List.foldl_append, mutStep, hm]
  · simp [ownNet, List.foldl_append, ownStep, ho]

theorem lfs_save_trace (c : Cache) (v : Vol) (n : String) (cnt : Content)
    (fuel : Nat) :
    stackRun (lfs_save c v n cnt fuel).tr = some [] ∧
    (acqList (lfs_save c v n cnt fuel).tr = [] ∨
      acqList (lfs_save c v n cnt fuel).tr =
        [rKey (pathOf n), wKey (pathOf n)]) ∧
    mutUnder [rKey (pathOf n), wKey (pathOf n)]
      (lfs_save c v n cnt fuel).tr = true ∧
    ownNet (lfs_save c v n cnt fuel).tr = [] := by
  unfold lfs_save
  cases cnt with
  | chunked d => simp [stackRun, acqList, mutUnder, ownNet]
  | bytes d =>
    cases hA : availableName v n fuel with
    | none =>
      obtain ⟨h1, h2, h3, h4⟩ := sandwichRW (pathOf n) [] rfl
      simp only [List.append_nil] at h1 h2 h3 h4
      simp only [hA]
      exact ⟨h1, Or.inr h2, h3, h4⟩
    | some n1 =>
      obtain ⟨h1, h2, h3, h4⟩ :=
        sandwichRW (pathOf n) [Ev.ioW (pathOf n1)] rfl
      simp only [hA]
      exact ⟨h1, Or.inr h2, h3, h4⟩
  | filelike d =>
    cases hA : availableName v n fuel with
    | none =>
      obtain ⟨h1, h2, h3, h4⟩ := sandwichRW (pathOf n) [] rfl
      simp only [List.append_nil] at h1 h2 h3 h4
      simp only [hA]
      exact ⟨h1, Or.inr h2, h3, h4⟩
    | some n1 =>
      rcases hS : djangoFsSave v n1 (contentData (Content.filelike d)) fuel
        with ⟨r, v', t⟩
      have hp : ioOnly t = true := by
        have h0 := djangoFsSave_ioOnly v n1 (contentData (Content.filelike d)) fuel
        rw [hS] at h0
        exact h0
      obtain ⟨h1, h2, h3, h4⟩ := sandwichRW (pathOf n) t hp
      cases r <;> simp only [hA, hS] <;> exact ⟨h1, Or.inr h2, h3, h4⟩
  | tempfile d =>
    cases hA : availableName v n fuel with
    | none =>
      obtain ⟨h1, h2, h3, h4⟩ := sandwichRW (pathOf n) [] rfl
      simp only [List.append_nil] at h1 h2 h3 h4
      simp only [hA]
      exact ⟨h1, Or.inr h2, h3, h4⟩
    | some n1 =>
      rcases hS : djangoFsSave v n1 (contentData (Content.tempfile d)) fuel
        with ⟨r, v', t⟩
      have hp : ioOnly t = true := by
        have h0 := djangoFsSave_ioOnly v n1 (contentData (Content.tempfile d)) fuel
        rw [hS] at h0
        exact h0
      obtain ⟨h1, h2, h3, h4⟩ := sandwichRW (pathOf n) t hp
      cases r <;> simp only [hA, hS] <;> exact ⟨h1, Or.inr h2, h3, h4⟩

theorem lfs_append_trace (c : Cache) (v : Vol) (n : String) (d : Bytes)
    (user : String) :
    stackRun (lfs_append c v n d user).tr = some [] ∧
    (acqList (lfs_append c v n d user).tr = [] ∨
      acqList (lfs_append c v n d user).tr =
        [rKey (pathOf n), wKey (pathOf n)]) ∧
    mutUnder [rKey (pathOf n), wKey (pathOf n)]
      (lfs_append c v n d user).tr = true ∧
    (user ≠ "" → ownNet (lfs_append c v n d user).tr = []) := by
  unfold lfs_append
  by_cases hG : (wd_is_locked c (pathOf n) = false ∨
      cacheGet c (pathOf n) ≠ some user)
  · simp only [if_pos hG]
    by_cases hT : pyTruthy (cacheGet c (pathOf n)) = true
    · simp only [wd_lock, wd_unlock, hT, if_true, cacheGet_set_self]
      by_cases hU : user = ""
      · subst hU
        simp [pyTruthy, stackRun, stackStep, acqList, mutUnder, mutStep,
          ownNet, ownStep]
      · have hPT : pyTruthy (some user) = true := by simp [pyTruthy, hU]
        simp [hPT, stackRun, stackStep, acqList, mutUnder, mutStep,
          ownNet, ownStep]
    · simp only [Bool.not_eq_true] at hT
      simp [wd_lock, wd_unlock, hT, stackRun, stackStep, acqList, mutUnder,
        mutStep, ownNet, ownStep]
  · simp [if_neg hG, stackRun, acqList, mutUnder, ownNet]

theorem lfs_mkcollection_trace (c : Cache) (v : Vol) (n : String)
    (user : String) :
    stackRun (lfs_mkcollection c v n user).tr = some [] ∧
    (acqList (lfs_mkcollection c v n user).tr = [] ∨
      acqList (lfs_mkcollection c v n user).tr = [wKey (pathOf n)]) ∧
    mutUnder [wKey (pathOf n)] (lfs_mkcollection c v n user).tr = true ∧
    ownNet (lfs_mkcollection c v n user).tr = [] := by
  unfold lfs_mkcollection
  by_cases hL : wd_is_locked c (pathOf n) = false
  · have hN : cacheGet c (pathOf n) = none := by
      cases hC : cacheGet c (pathOf n) with
      | none => rfl
      | some x => simp [wd_is_locked, hC] at hL
    simp only [if_pos hL]
    by_cases hE : volExists v (pathOf n) = false
    · by_cases hD : volDenied v (pathOf n) = true <;>
        simp [if_pos hE, wd_lock, wd_unlock, hN, pyTruthy, hD, stackRun,
          stackStep, acqList, mutUnder, mutStep, ownNet, ownStep]
    · simp [if_neg hE, stackRun, stackStep, acqList, mutUnder, mutStep,
        ownNet, ownStep]
  · simp [if_neg hL, stackRun, acqList, mutUnder, ownNet]

theorem lfs_delete_trace (c : Cache) (v : Vol) (n : String) :
    stackRun (lfs_delete c v n).tr = some [] ∧
    (acqList (lfs_delete c v n).tr = [] ∨
      acqList (lfs_delete c v n).tr = [rKey (pathOf n), wKey (pathOf n)]) ∧
    mutUnder [rKey (pathOf n), wKey (pathOf n)] (lfs_delete c v n).tr = true ∧
    ownNet (lfs_delete c v n).tr = [] := by
  unfold lfs_delete
  by_cases hE : volExists v (pathOf n) = true
  · simp only [if_pos hE]
    cases hF : volGet v (pathOf n) <;>
      simp [hF, stackRun, stackStep, acqList, mutUnder, mutStep,
        ownNet, ownStep]
  · simp [if_neg hE, stackRun, stackStep, acqList, mutUnder, mutStep,
      ownNet, ownStep]

theorem lfs_move_trace (c : Cache) (v : Vol) (n nn : String) :
    stackRun (lfs_move c v n nn).tr = some [] ∧
    acqList (lfs_move c v n nn).tr = [rKey (pathOf n), wKey (pathOf n)] ∧
    mutUnder [rKey (pathOf n), wKey (pathOf n)] (lfs_move c v n nn).tr = true ∧
    ownNet (lfs_move c v n nn).tr = [] := by
  unfold lfs_move
  cases h : volGet v (pathOf n) <;>
    simp [h, stackRun, stackStep, acqList, mutUnder, mutStep, ownNet, ownStep]

theorem gfsSaveLoop_ioOnly (v : Vol) (cnt : Content) :
    ∀ (name : String) (fuel : Nat),
      ioOnly (gfsSaveLoop v cnt name fuel).2.2 = true := by
  intro name fuel
  induction fuel generalizing name with
  | zero => cases cnt <;> simp [gfsSaveLoop, ioOnly]
  | succ fuel ih =>
    cases cnt with
    | chunked d => simp [gfsSaveLoop, ioOnly]
    | bytes d => simp [gfsSaveLoop, ioOnly]
    | filelike d => simp [gfsSaveLoop, ioOnly]
    | tempfile d =>
      simp only [gfsSaveLoop]
      by_cases hE : volExists v (pathOf name) = true
      · simp only [hE, if_true]
        cases hA : availableName v name (v.files.length + 1) with
        | none => simp [ioOnly]
        | some n' =>
          have hrec := ih n'
          rcases hL : gfsSaveLoop v (Content.tempfile d) n' fuel with ⟨r, fp, t⟩
          rw [hL] at hrec
          simp only [ioOnly] at hrec ⊢
          simp [hL, hrec]
      · simp [hE, ioOnly]

theorem gfsShape (p fp : String) (t : List Ev) (h : ioOnly t = true) :
    stackRun ([Ev.acq (rKey p), Ev.acq (wKey p)] ++
      [Ev.acq p, Ev.cset p "storage", Ev.rel p] ++ t ++ [Ev.cdel fp] ++
      [Ev.rel (wKey p), Ev.rel (rKey p)]) = some [] ∧
    acqList ([Ev.acq (rKey p), Ev.acq (wKey p)] ++
      [Ev.acq p, Ev.cset p "storage", Ev.rel p] ++ t ++ [Ev.cdel fp] ++
      [Ev.rel (wKey p), Ev.rel (rKey p)]) = [rKey p, wKey p, p] ∧
    mutUnder [rKey p, wKey p] ([Ev.acq (rKey p), Ev.acq (wKey p)] ++
      [Ev.acq p, Ev.cset p "storage", Ev.rel p] ++ t ++ [Ev.cdel fp] ++
      [Ev.rel (wKey p), Ev.rel (rKey p)]) = true ∧
    (ownNet ([Ev.acq (rKey p), Ev.acq (wKey p)] ++
      [Ev.acq p, Ev.cset p "storage", Ev.rel p] ++ t ++ [Ev.cdel fp] ++
      [Ev.rel (wKey p), Ev.rel (rKey p)]) = [] ∨
     ownNet ([Ev.acq (rKey p), Ev.acq (wKey p)] ++
      [Ev.acq p, Ev.cset p "storage", Ev.rel p] ++ t ++ [Ev.cdel fp] ++
      [Ev.rel (wKey p), Ev.rel (rKey p)]) = [p]) := by
  have hs : t.foldl stackStep (some [wKey p, rKey p]) = some [wKey p, rKey p] :=
    stackRun_append_pure _ t h
  have hm : t.foldl (mutStep [rKey p, wKey p]) ([wKey p, rKey p], true) =
      ([wKey p, rKey p], true) := by
    refine mutStep_fold_pure _ _ _ t ?_ h
    intro k hk
    simp only [List.mem_cons, List.not_mem_nil, or_false] at hk
    rcases hk with rfl | rfl <;> simp [List.contains]
  have ha : acqList t = [] := acqList_pure t h
  have ho : t.foldl ownStep [p] = [p] := ownStep_fold_pure [p] t h
  refine ⟨?_, ?_, ?_, ?_⟩
  · simp [stackRun, List.foldl_append, stackStep, hs]
  · simp only [acqList] at ha ⊢
    simp [List.filterMap_append, ha]
  · simp [mutUnder, List.foldl_append, mutStep, hm]
  · by_cases hfp : fp = p
    · subst hfp
      refine Or.inl ?_
      simp [ownNet, List.foldl_append, ownStep, ho]
    · refine Or.inr ?_
      have he : List.erase [p] fp = [p] := by
        rw [List.erase_cons, if_neg]
        · simp
        · simp only [beq_iff_eq]
          exact fun hpp => hfp hpp.symm
      simp [ownNet, List.foldl_append, ownStep, ho, he]

theorem gfs_save_trace (c : Cache) (v : Vol) (n : String) (cnt : Content)
    (fuel : Nat) :
    stackRun (gfs_save c v n cnt fuel).tr = some [] ∧
    (acqList (gfs_save c v n cnt fuel).tr =
        [rKey (pathOf n), wKey (pathOf n)] ∨
      acqList (gfs_save c v n cnt fuel).tr =
        [rKey (pathOf n), wKey (pathOf n), pathOf n]) ∧
    mutUnder [rKey (pathOf n), wKey (pathOf n)]
      (gfs_save c v n cnt fuel).tr = true ∧
    (ownNet (gfs_save c v n cnt fuel).tr = [] ∨
      ownNet (gfs_save c v n cnt fuel).tr = [pathOf n]) := by
  unfold gfs_save
  by_cases hC : (cacheGet c (pathOf n)).isSome = false
  · simp only [if_pos hC]
    by_cases hE : volExists v (dirname (pathOf n)) = false
    · obtain ⟨h1, h2, h3, h4⟩ := gfsShape (pathOf n) (pathOf n) [] rfl
      simp only [List.append_nil] at h1 h2 h3 h4
      simp only [if_pos hE]
      exact ⟨h1, Or.inr h2, h3, h4⟩
    · simp only [if_neg hE]
      by_cases hD : volIsDir v (dirname (pathOf n)) = false
      · obtain ⟨h1, h2, h3, h4⟩ := gfsShape (pathOf n) (pathOf n) [] rfl
        simp only [List.append_nil] at h1 h2 h3 h4
        simp only [if_pos hD]
        exact ⟨h1, Or.inr h2, h3, h4⟩
      · simp only [if_neg hD]
        rcases hL : gfsSaveLoop v cnt n fuel with ⟨r, fp, t⟩
        have hp : ioOnly t = true := by
          have h0 := gfsSaveLoop_ioOnly v cnt n fuel
          rw [hL] at h0
          exact h0
        obtain ⟨h1, h2, h3, h4⟩ := gfsShape (pathOf n) fp t hp
        cases r <;> exact ⟨h1, Or.inr h2, h3, h4⟩
  · have hS : cacheGet c (pathOf n) ≠ none := by
      intro h0
      exact hC (by simp [h0])
    simp [hS, if_neg hC, stackRun, stackStep, acqList, mutUnder, mutStep,
      ownNet, ownStep]

theorem g_delete_trace (c : Cache) (v : Vol) (n : String) (user : String) :
    stackRun (g_delete c v n user).tr = some [] ∧
    acqList (g_delete c v n user).tr = [rKey (pathOf n), wKey (pathOf n)] ∧
    mutUnder [rKey (pathOf n), wKey (pathOf n)] (g_delete c v n user).tr
      = true ∧
    ownNet (g_delete c v n user).tr = [] := by
  unfold g_delete
  by_cases hLk : wd_is_locked c (pathOf n) = false
  · have hN : cacheGet c (pathOf n) = none := by
      cases hCg : cacheGet c (pathOf n) with
      | none => rfl
      | some x => simp [wd_is_locked, hCg] at hLk
    simp only [if_pos hLk]
    cases hF : volGet v (pathOf n) with
    | some d =>
      simp [hF, wd_lock, wd_unlock, hN, pyTruthy, stackRun, stackStep,
        acqList, mutUnder, mutStep, ownNet, ownStep]
    | none =>
      by_cases hD : volIsDir v (pathOf n) = true <;>
        simp [hF, hD, wd_lock, wd_unlock, hN, pyTruthy, stackRun, stackStep,
          acqList, mutUnder, mutStep, ownNet, ownStep]
  · simp [if_neg hLk, stackRun, stackStep, acqList, mutUnder, mutStep,
      ownNet, ownStep]

theorem g_move_trace (c : Cache) (v : Vol) (n nn : String) (user : String) :
    stackRun (g_move c v n nn user).tr = some [] ∧
    acqList (g_move c v n nn user).tr = [] ∧
    (user ≠ "" → ownNet (g_move c v n nn user).tr = []) := by
  unfold g_move
  by_cases hLk : wd_is_locked c (pathOf n) = true
  · simp only [if_pos hLk]
    by_cases hT : pyTruthy (cacheGet c (pathOf n)) = true
    · simp only [wd_lock, wd_unlock, hT, if_true, cacheGet_set_self]
      by_cases hU : user = ""
      · subst hU
        cases hF : volGet v (pathOf n) <;>
          simp [hF, pyTruthy, stackRun, stackStep, acqList, mutUnder,
            mutStep, ownNet, ownStep]
      · have hPT : pyTruthy (some user) = true := by simp [pyTruthy, hU]
        cases hF : volGet v (pathOf n) <;>
          simp [hF, hPT, stackRun, stackStep, acqList, mutUnder, mutStep,
            ownNet, ownStep]
    · simp only [Bool.not_eq_true] at hT
      cases hF : volGet v (pathOf n) <;>
        simp [hF, wd_lock, wd_unlock, hT, stackRun, stackStep, acqList,
          mutUnder, mutStep, ownNet, ownStep]
  · simp [if_neg hLk, stackRun, acqList, ownNet]

theorem g_append_trace (c : Cache) (v : Vol) (n : String) (d : Bytes)
    (user : String) :
    stackRun (g_append c v n d user).tr = some [] ∧
    acqList (g_append c v n d user).tr = [rKey (pathOf n), wKey (pathOf n)] ∧
    mutUnder [rKey (pathOf n), wKey (pathOf n)] (g_append c v n d user).tr
      = true ∧
    ownNet (g_append c v n d user).tr = [] := by
  unfold g_append
  by_cases hLk : wd_is_locked c (pathOf n) = false
  · have hN : cacheGet c (pathOf n) = none := by
      cases hCg : cacheGet c (pathOf n) with
      | none => rfl
      | some x => simp [wd_is_locked, hCg] at hLk
    simp [if_pos hLk, wd_lock, wd_unlock, hN, pyTruthy, stackRun, stackStep,
      acqList, mutUnder, mutStep, ownNet, ownStep]
  · simp [if_neg hLk, stackRun, stackStep, acqList, mutUnder, mutStep,
      ownNet, ownStep]

theorem g_mkcollection_trace (c : Cache) (v : Vol) (n : String)
    (user : String) :
    stackRun (g_mkcollection c v n user).tr = some [] ∧
    (acqList (g_mkcollection c v n user).tr = [] ∨
      acqList (g_mkcollection c v n user).tr =
        [rKey (pathOf n), wKey (pathOf n)]) ∧
    mutUnder [rKey (pathOf n), wKey (pathOf n)]
      (g_mkcollection c v n user).tr = true ∧
    ownNet (g_mkcollection c v n user).tr = [] := by
  unfold g_mkcollection
  by_cases hE : volExists v (pathOf n) = false
  · simp only [if_pos hE]
    by_cases hLk : wd_is_locked c (pathOf n) = false
    · have hN : cacheGet c (pathOf n) = none := by
        cases hCg : cacheGet c (pathOf n) with
        | none => rfl
        | some x => simp [wd_is_locked, hCg] at hLk
      by_cases hD : volDenied v (pathOf n) = true <;>
        simp [if_pos hLk, hD, wd_lock, wd_unlock, hN, pyTruthy, stackRun,
          stackStep, acqList, mutUnder, mutStep, ownNet, ownStep]
    · simp [if_neg hLk, stackRun, stackStep, acqList, mutUnder, mutStep,
        ownNet, ownStep]
  · simp [if_neg hE, stackRun, stackStep, acqList, mutUnder, mutStep,
      ownNet, ownStep]

/-- Claim C1: the spec's contract says `lock(p, u)` succeeds exactly when
`p` is currently free, storing `u` with the TTL, and that after `lock(p,
u1)` succeeds a later `lock(p, u2)` fails reporting owner `u1`.  The
source's `lock` tests the existing cache entry the wrong way round
(`if caches['default'].get(fpath):`): on a free path it stores nothing and
returns `(False, None)`, and on a path held by `u1` it overwrites the owner
with `u2` and returns `(True, u2)`.  This theorem evaluates the embedded
`lock` at both inputs.  The repository's own `test_locking` expects
`cache.get` to hold the owner right after locking a free path, so the code
contradicts its own test and the claim is marked a code bug. -/
theorem claim_C1_lock_polarity :
    wd_lock [] (pathOf "f.txt") "u1" = ((false, none), [], []) ∧
    wd_lock [(pathOf "f.txt", "u1")] (pathOf "f.txt") "u2"
      = ((true, some "u2"), [(pathOf "f.txt", "u2")],
          [Ev.cset (pathOf "f.txt") "u2"]) := by
  constructor <;> rfl

/-- Claim C8 counterexample: with the stored owner being the empty string,
`unlock(p, "")` returns the prior owner but leaves the entry untouched —
the guard `if check_user and check_user == user:` is false for a falsy
owner — so "unlock(p, u1) clears the entry" fails at u1 = `""`. -/
theorem claim_C8_counterexample :
    wd_unlock [(pathOf "f.txt", "")] (pathOf "f.txt") ""
      = (some "", [(pathOf "f.txt", "")], []) := rfl

/-- Claim C8 (amended): `unlock` always returns the owner stored before
the call; with stored owner `u1` and a different supplied owner the entry
is untouched; with a matching *non-empty* owner the entry is cleared; an
entry owned by the empty string is never cleared (Python truthiness). -/
theorem claim_C8_unlock (c : Cache) (p u1 u2 : String) :
    (wd_unlock c p u2).1 = cacheGet c p ∧
    (cacheGet c p = some u1 → u1 ≠ u2 → (wd_unlock c p u2).2.1 = c) ∧
    (cacheGet c p = some u1 → u1 ≠ "" →
      (wd_unlock c p u1).2.1 = cacheDelete c p) ∧
    (cacheGet c p = some "" → (wd_unlock c p "").2.1 = c) := by
  refine ⟨?_, ?_, ?_, ?_⟩
  · unfold wd_unlock
    by_cases hc : pyTruthy (cacheGet c p) = true ∧ cacheGet c p = some u2
    · simp only [hc.2, hc.1]
      split <;> rfl
    · simp [hc]
  · intro h hne
    simp [wd_unlock, h, hne]
  · intro h hne
    simp [wd_unlock, h, pyTruthy, hne]
  · intro h
    simp [wd_unlock, h, pyTruthy]

/-- Witness for the amended C8 theorem at concrete inputs. -/
theorem claim_C8_unlock_witness :
    (wd_unlock [(pathOf "a.txt", "u1")] (pathOf "a.txt") "u2").2.1
      = [(pathOf "a.txt", "u1")] ∧
    (wd_unlock [(pathOf "a.txt", "u1")] (pathOf "a.txt") "u1").2.1
      = cacheDelete [(pathOf "a.txt", "u1")] (pathOf "a.txt") :=
  ⟨(claim_C8_unlock [(pathOf "a.txt", "u1")] (pathOf "a.txt") "u1" "u2").2.1
      rfl (by decide),
   (claim_C8_unlock [(pathOf "a.txt", "u1")] (pathOf "a.txt") "u1" "u2").2.2.1
      rfl (by decide)⟩

/-- Claim C9: `LocalFileStorage.save` with content exposing a `chunks`
attribute (an ordinary Django `File`/`ContentFile`, `Content.chunked`
here) acquires no locks, performs no backend access, leaves the lock table
and every stored file unchanged, and returns `None`; consequently only
content without a `chunks` attribute ever reaches the locked save path. -/
theorem claim_C9_chunked_save_noop (c : Cache) (v : Vol) (n : String)
    (d : Bytes) (fuel : Nat) :
    lfs_save c v n (Content.chunked d) fuel = ⟨.ok none, c, v, []⟩ := rfl

/-- Claim C10: when the resolved path does not exist on the volume but the
per-path lock-table entry is present, `GlusterFSStorage.mkcollection`
skips the creation step entirely yet still returns `(True, None)`: success
is reported although no collection comes into existence. -/
theorem claim_C10_mkcollection_skip (c : Cache) (v : Vol) (n user : String)
    (hE : volExists v (pathOf n) = false)
    (hL : (cacheGet c (pathOf n)).isSome = true) :
    (g_mkcollection c v n user).res = .ok (true, none) ∧
    (g_mkcollection c v n user).vol = v ∧
    (g_mkcollection c v n user).cache = c := by
  have hLk : ¬ wd_is_locked c (pathOf n) = false := by
    simp [wd_is_locked, hL]
  unfold g_mkcollection
  simp [hE, hLk]

/-- Witness for C10 at a concrete locked, non-existing path. -/
theorem claim_C10_witness :
    (g_mkcollection [(pathOf "docs", "alice")] v0 "docs" "bob").res
      = .ok (true, none) ∧
    (g_mkcollection [(pathOf "docs", "alice")] v0 "docs" "bob").vol = v0 ∧
    (g_mkcollection [(pathOf "docs", "alice")] v0 "docs" "bob").cache
      = [(pathOf "docs", "alice")] :=
  claim_C10_mkcollection_skip [(pathOf "docs", "alice")] v0 "docs" "bob"
    rfl rfl

/-- Claim C3: the claim says an `append` while the per-path lock is held by
a different identity returns `False` and leaves the bytes unchanged.
`GlusterFSStorage.append` conforms (third and fourth conjuncts).
`LocalFileStorage.append` has the owner test inverted — its guard
`if self.is_locked(full_path) is False or cache.get(full_path) is not
user:` *proceeds* exactly when the path is free or held by someone else —
so with the lock held by `alice`, `append(..., "bob")` writes and returns
`True` (first and second conjuncts), and on the way it overwrites and then
deletes alice's ownership entry (fifth conjunct). -/
theorem claim_C3_append_owner_inverted :
    (lfs_append [(pathOf "f.txt", "alice")]
        ⟨[(pathOf "f.txt", [104])], ["/m"], []⟩ "f.txt" [33] "bob").res
      = .ok true ∧
    volGet (lfs_append [(pathOf "f.txt", "alice")]
        ⟨[(pathOf "f.txt", [104])], ["/m"], []⟩ "f.txt" [33] "bob").vol
        (pathOf "f.txt")
      = some [104, 33] ∧
    (g_append [(pathOf "f.txt", "alice")]
        ⟨[(pathOf "f.txt", [104])], ["/m"], []⟩ "f.txt" [33] "bob").res
      = .ok false ∧
    (g_append [(pathOf "f.txt", "alice")]
        ⟨[(pathOf "f.txt", [104])], ["/m"], []⟩ "f.txt" [33] "bob").vol
      = ⟨[(pathOf "f.txt", [104])], ["/m"], []⟩ ∧
    (lfs_append [(pathOf "f.txt", "alice")]
        ⟨[(pathOf "f.txt", [104])], ["/m"], []⟩ "f.txt" [33] "bob").cache
      = [] := by
  refine ⟨?_, ?_, ?_, ?_, ?_⟩ <;> rfl

/-- Claim C4 counterexample: `LocalFileStorage.mkcollection` performs its
backend mutation while holding only the writer-keyed named lock — the
reader-keyed lock is never acquired — falsifying "every mutating operation
acquires both the reader-keyed and the writer-keyed lock ... before
performing any backend I/O". -/
theorem claim_C4_counterexample :
    acqList (lfs_mkcollection [] v0 "docs" "alice").tr
      = [wKey (pathOf "docs")] ∧
    rKey (pathOf "docs") ∉ acqList (lfs_mkcollection [] v0 "docs" "alice").tr ∧
    Ev.ioW (pathOf "docs") ∈ (lfs_mkcollection [] v0 "docs" "alice").tr :=
  ⟨rfl, by decide, by decide⟩

/-- Claim C4 (amended): for every mutating operation of both backends, the
named scoped locks are acquired reader-first and released in properly
nested order on every exit path (so no named lock stays held after the
call), and every mutating backend access happens under the named locks the
operation takes — with the exceptions the code forces:
`LocalFileStorage.mkcollection` acquires only the writer-keyed lock;
`GlusterFSStorage.move` acquires no named locks at all; existence probes
may precede locking; `GlusterFSStorage._save` additionally takes a scoped
lock on the raw path around its marker write.  Every per-path ownership
entry an operation sets is deleted again before returning (for a non-empty
caller identity where one is involved), except `GlusterFSStorage._save`,
which after a collision renamed the target deletes the marker at the
renamed path only, leaving the marker on the originally resolved path set
(final conjunct, at a concrete collision). -/
theorem claim_C4_locks :
    (∀ (c : Cache) (v : Vol) (n : String) (cnt : Content) (fuel : Nat),
      stackRun (lfs_save c v n cnt fuel).tr = some [] ∧
      (acqList (lfs_save c v n cnt fuel).tr = [] ∨
        acqList (lfs_save c v n cnt fuel).tr =
          [rKey (pathOf n), wKey (pathOf n)]) ∧
      mutUnder [rKey (pathOf n), wKey (pathOf n)]
        (lfs_save c v n cnt fuel).tr = true ∧
      ownNet (lfs_save c v n cnt fuel).tr = []) ∧
    (∀ (c : Cache) (v : Vol) (n nn : String),
      stackRun (lfs_move c v n nn).tr = some [] ∧
      acqList (lfs_move c v n nn).tr = [rKey (pathOf n), wKey (pathOf n)] ∧
      mutUnder [rKey (pathOf n), wKey (pathOf n)] (lfs_move c v n nn).tr
        = true ∧
      ownNet (lfs_move c v n nn).tr = []) ∧
    (∀ (c : Cache) (v : Vol) (n : String) (d : Bytes) (user : String),
      stackRun (lfs_append c v n d user).tr = some [] ∧
      (acqList (lfs_append c v n d user).tr = [] ∨
        acqList (lfs_append c v n d user).tr =
          [rKey (pathOf n), wKey (pathOf n)]) ∧
      mutUnder [rKey (pathOf n), wKey (pathOf n)]
        (lfs_append c v n d user).tr = true ∧
      (user ≠ "" → ownNet (lfs_append c v n d user).tr = [])) ∧
    (∀ (c : Cache) (v : Vol) (n : String) (user : String),
      stackRun (lfs_mkcollection c v n user).tr = some [] ∧
      (acqList (lfs_mkcollection c v n user).tr = [] ∨
        acqList (lfs_mkcollection c v n user).tr = [wKey (pathOf n)]) ∧
      mutUnder [wKey (pathOf n)] (lfs_mkcollection c v n user).tr = true ∧
      ownNet (lfs_mkcollection c v n user).tr = []) ∧
    (∀ (c : Cache) (v : Vol) (n : String),
      stackRun (lfs_delete c v n).tr = some [] ∧
      (acqList (lfs_delete c v n).tr = [] ∨
        acqList (lfs_delete c v n).tr =
          [rKey (pathOf n), wKey (pathOf n)]) ∧
      mutUnder [rKey (pathOf n), wKey (pathOf n)] (lfs_delete c v n).tr
        = true ∧
      ownNet (lfs_delete c v n).tr = []) ∧
    (∀ (c : Cache) (v : Vol) (n : String) (cnt : Content) (fuel : Nat),
      stackRun (gfs_save c v n cnt fuel).tr = some [] ∧
      (acqList (gfs_save c v n cnt fuel).tr =
          [rKey (pathOf n), wKey (pathOf n)] ∨
        acqList (gfs_save c v n cnt fuel).tr =
          [rKey (pathOf n), wKey (pathOf n), pathOf n]) ∧
      mutUnder [rKey (pathOf n), wKey (pathOf n)]
        (gfs_save c v n cnt fuel).tr = true ∧
      (ownNet (gfs_save c v n cnt fuel).tr = [] ∨
        ownNet (gfs_save c v n cnt fuel).tr = [pathOf n])) ∧
    (∀ (c : Cache) (v : Vol) (n : String) (user : String),
      stackRun (g_delete c v n user).tr = some [] ∧
      acqList (g_delete c v n user).tr =
        [rKey (pathOf n), wKey (pathOf n)] ∧
      mutUnder [rKey (pathOf n), wKey (pathOf n)] (g_delete c v n user).tr
        = true ∧
      ownNet (g_delete c v n user).tr = []) ∧
    (∀ (c : Cache) (v : Vol) (n nn : String) (user : String),
      stackRun (g_move c v n nn user).tr = some [] ∧
      acqList (g_move c v n nn user).tr = [] ∧
      (user ≠ "" → ownNet (g_move c v n nn user).tr = [])) ∧
    (∀ (c : Cache) (v : Vol) (n : String) (d : Bytes) (user : String),
      stackRun (g_append c v n d user).tr = some [] ∧
      acqList (g_append c v n d user).tr =
        [rKey (pathOf n), wKey (pathOf n)] ∧
      mutUnder [rKey (pathOf n), wKey (pathOf n)] (g_append c v n d user).tr
        = true ∧
      ownNet (g_append c v n d user).tr = []) ∧
    (∀ (c : Cache) (v : Vol) (n : String) (user : String),
      stackRun (g_mkcollection c v n user).tr = some [] ∧
      (acqList (g_mkcollection c v n user).tr = [] ∨
        acqList (g_mkcollection c v n user).tr =
          [rKey (pathOf n), wKey (pathOf n)]) ∧
      mutUnder [rKey (pathOf n), wKey (pathOf n)]
        (g_mkcollection c v n user).tr = true ∧
      ownNet (g_mkcollection c v n user).tr = []) ∧
    (saveLeak.res = .ok (true, some "report_1.txt") ∧
      saveLeak.cache = [(pathOf "report.txt", "storage")] ∧
      ownNet saveLeak.tr = [pathOf "report.txt"]) :=
  ⟨lfs_save_trace, lfs_move_trace, lfs_append_trace, lfs_mkcollection_trace,
   lfs_delete_trace, gfs_save_trace, g_delete_trace, g_move_trace,
   g_append_trace, g_mkcollection_trace, rfl, rfl, rfl⟩

/-- Witness for the amended C4 theorem at concrete inputs, discharging the
non-empty-identity hypotheses. -/
theorem claim_C4_locks_witness :
    ownNet (lfs_append [] v0 "f.txt" [1] "u").tr = [] ∧
    ownNet (g_move [(pathOf "f.txt", "a")] vC "report.txt" "r2.txt" "u").tr
      = [] := by
  obtain ⟨h1, h2, h3, h4, h5, h6, h7, h8, h9, h10, h11⟩ := claim_C4_locks
  exact ⟨(h3 [] v0 "f.txt" [1] "u").2.2.2 (by decide),
    (h8 [(pathOf "f.txt", "a")] vC "report.txt" "r2.txt" "u").2.2 (by decide)⟩

/-- Claim C5: for an existing file, the gluster `safe_read_chunk` returns
`(None, 0)` (the source's empty result) whenever the offset is at or past
the file size, and otherwise exactly `min(length, fileSize - offset)` bytes
starting at the offset, raising nothing — while the cited
`LocalFileStorage.safe_read_chunk` raises `TypeError` for *every* existing
file, because `os.open(full_path, 'r')` passes string flags. -/
theorem claim_C5_safe_read_chunk_clamps (v : Vol) (name : String)
    (data : Bytes) (offset length : Nat)
    (hF : volGet v (pathOf name) = some data) :
    (data.length ≤ offset →
      g_safe_read_chunk v name offset length = .ok (none, 0)) ∧
    (offset < data.length →
      g_safe_read_chunk v name offset length
        = .ok (some ((data.drop offset).take
              (min length (data.length - offset))),
            min length (data.length - offset))) ∧
    lfs_safe_read_chunk v name offset length = .error .typeError := by
  have hE : volExists v (pathOf name) = true := by simp [volExists, hF]
  refine ⟨?_, ?_, ?_⟩
  · intro h
    have hnl : ¬ offset < data.length := by omega
    simp [g_safe_read_chunk, hE, hF, hnl]
  · intro h
    have hmin : (if data.length - offset < length then data.length - offset
        else length) = min length (data.length - offset) := by
      rcases Nat.lt_or_ge (data.length - offset) length with h' | h' <;>
        simp [h'] <;> omega
    simp [g_safe_read_chunk, hE, hF, h, hmin]
  · simp [lfs_safe_read_chunk, hE]

/-- Witness for C5 on a three-byte file: an offset past the end yields the
empty result, an in-range offset yields the clamped slice, and the local
variant raises. -/
theorem claim_C5_witness :
    g_safe_read_chunk ⟨[(pathOf "f.txt", [10, 20, 30])], ["/m"], []⟩
      "f.txt" 5 7 = .ok (none, 0) ∧
    g_safe_read_chunk ⟨[(pathOf "f.txt", [10, 20, 30])], ["/m"], []⟩
      "f.txt" 1 7 = .ok (some [20, 30], 2) ∧
    lfs_safe_read_chunk ⟨[(pathOf "f.txt", [10, 20, 30])], ["/m"], []⟩
      "f.txt" 1 7 = .error .typeError := by
  refine ⟨(claim_C5_safe_read_chunk_clamps
      ⟨[(pathOf "f.txt", [10, 20, 30])], ["/m"], []⟩ "f.txt" [10, 20, 30]
      5 7 rfl).1 (by decide), ?_,
    (claim_C5_safe_read_chunk_clamps
      ⟨[(pathOf "f.txt", [10, 20, 30])], ["/m"], []⟩ "f.txt" [10, 20, 30]
      1 7 rfl).2.2⟩
  exact ((claim_C5_safe_read_chunk_clamps
    ⟨[(pathOf "f.txt", [10, 20, 30])], ["/m"], []⟩ "f.txt" [10, 20, 30] 1 7
    rfl).2.1 (by decide)).trans rfl

/-- The download loop of the gluster backend, relative to a snapshotted
size: from any offset within the file it terminates, the yielded chunks
concatenate to the remaining bytes, every step advances by the bytes read,
and the final reported offset is exactly the snapshotted size. -/
theorem gDownloadLoop_spec (v : Vol) (name : String) (data : Bytes) (c : Nat)
    (hF : volGet v (pathOf name) = some data) (hc : 1 ≤ c) :
    ∀ (fuel offset : Nat), offset ≤ data.length → data.length - offset ≤ fuel →
      ∃ L, gDownloadLoop v name c data.length offset fuel = .ok L ∧
        joinChunks L = data.drop offset ∧
        stepsOk offset L ∧
        finalOff offset L = data.length := by
  have hE : volExists v (pathOf name) = true := by simp [volExists, hF]
  intro fuel
  induction fuel with
  | zero =>
    intro offset h1 h2
    have hnl : ¬ offset < data.length := by omega
    refine ⟨[], by simp [gDownloadLoop, hnl], ?_, trivial, ?_⟩
    · have : data.length ≤ offset := by omega
      simp [joinChunks, List.drop_eq_nil_of_le this]
    · simp only [finalOff]
      omega
  | succ fuel ih =>
    intro offset h1 h2
    by_cases hlt : offset < data.length
    · have hmin : (if data.length - offset < c then data.length - offset
          else c) = min c (data.length - offset) := by
        rcases Nat.lt_or_ge (data.length - offset) c with h' | h' <;>
          simp [h'] <;> omega
      have hchunk : g_safe_read_chunk v name offset c
          = .ok (some ((data.drop offset).take
              (min c (data.length - offset))), min c (data.length - offset)) := by
        simp [g_safe_read_chunk, hE, hF, hlt, hmin]
      set l := min c (data.length - offset) with hldef
      have hl1 : 1 ≤ l := by
        rw [hldef]
        omega
      have hlle : l ≤ data.length - offset := by
        rw [hldef]
        omega
      obtain ⟨L, hL, hj, hs, hf⟩ := ih (offset + l) (by omega) (by omega)
      refine ⟨(some ((data.drop offset).take l), l, offset + l) :: L,
        ?_, ?_, ?_, ?_⟩
      · simp [gDownloadLoop, hlt, hchunk, hL]
      · simp only [joinChunks, List.foldr_cons, Option.getD_some]
        simp only [joinChunks] at hj
        rw [hj]
        have hdd : (data.drop offset).drop l = data.drop (offset + l) := by
          simp [List.drop_drop, Nat.add_comm]
        rw [← hdd]
        exact List.take_append_drop l (data.drop offset)
      · refine ⟨rfl, ?_, hs⟩
        have hlen : ((data.drop offset).take l).length = l := by
          simp only [List.length_take, List.length_drop]
          omega
        simpa using hlen
      · simpa [finalOff] using hf
    · refine ⟨[], by simp [gDownloadLoop, hlt], ?_, trivial, ?_⟩
      · have : data.length ≤ offset := by omega
        simp [joinChunks, List.drop_eq_nil_of_le this]
      · simp only [finalOff]
        omega

/-- Claim C6: for an existing file and a positive chunk bound, iterating
the gluster `download` yields a finite sequence of `(chunk, bytesRead,
newOffset)` triples whose chunks concatenate to the file's bytes, each
step advancing the offset by the bytes read, with the final reported
offset equal to the snapshotted size — while the cited
`LocalFileStorage.download` of any non-empty file dies on its first chunk
with the `TypeError` of `LocalFileStorage.safe_read_chunk`. -/
theorem claim_C6_download (v : Vol) (name : String) (data : Bytes) (c : Nat)
    (hF : volGet v (pathOf name) = some data) (hc : 1 ≤ c) :
    (∃ L, g_download v name c = .ok L ∧
      joinChunks L = data ∧
      stepsOk 0 L ∧
      finalOff 0 L = data.length) ∧
    (1 ≤ data.length → lfs_download v name c = .error .typeError) := by
  have hE : volExists v (pathOf name) = true := by simp [volExists, hF]
  constructor
  · obtain ⟨L, hL, hj, hs, hf⟩ :=
      gDownloadLoop_spec v name data c hF hc (data.length + 1) 0 (by omega)
        (by omega)
    exact ⟨L, by simp [g_download, hF, hL], by simpa using hj, hs, hf⟩
  · intro hlen
    have hpos : 0 < data.length := hlen
    simp [lfs_download, hF, lfsDownloadLoop, hpos, lfs_safe_read_chunk, hE]

/-- Witness for C6 on a three-byte file with chunk bound 2: the gluster
download reproduces the bytes ending at offset 3, the local download
raises. -/
theorem claim_C6_witness :
    (∃ L, g_download ⟨[(pathOf "g.txt", [1, 2, 3])], ["/m"], []⟩ "g.txt" 2
        = .ok L ∧
      joinChunks L = [1, 2, 3] ∧
      stepsOk 0 L ∧
      finalOff 0 L = 3) ∧
    (lfs_download ⟨[(pathOf "g.txt", [1, 2, 3])], ["/m"], []⟩ "g.txt" 2
      = .error .typeError) := by
  have h := claim_C6_download ⟨[(pathOf "g.txt", [1, 2, 3])], ["/m"], []⟩
    "g.txt" [1, 2, 3] 2 rfl (by decide)
  exact ⟨h.1, h.2 (by decide)⟩

theorem volGet_set_self (v : Vol) (p : String) (d : Bytes) :
    volGet (volSetFile v p d) p = some d := by
  simp [volGet, volSetFile, alGet]

/-- Claim C7 counterexample: on a fresh, unlocked path whose node creation
raises, `LocalFileStorage.mkcollection` lets the exception propagate to
the caller, falsifying "the error is captured and returned as data, never
propagated" for the cited LocalFileStorage implementation. -/
theorem claim_C7_counterexample :
    (lfs_mkcollection [] ⟨[], ["/m"], [pathOf "docs"]⟩ "docs" "alice").res
      = .error .permError := rfl

/-- Claim C7 (amended): `GlusterFSStorage.mkcollection` honours the claim —
`(True, None)` when it creates the marker, `(False, errorDetail)` when
creation raises (captured as data), `(False, None)` on an existing path,
and the fresh-then-second-call scenario (second conjunct, last part);
`LocalFileStorage.mkcollection`, also cited by the claim, instead returns
bare booleans and propagates creation errors (fourth to sixth
conjuncts). -/
theorem claim_C7_mkcollection (c : Cache) (v : Vol) (n user u2 : String) :
    (volExists v (pathOf n) = true →
      g_mkcollection c v n user
        = ⟨.ok (false, none), c, v, [Ev.ioR (pathOf n)]⟩) ∧
    (volExists v (pathOf n) = false → cacheGet c (pathOf n) = none →
      volDenied v (pathOf n) = false →
      (g_mkcollection c v n user).res = .ok (true, none) ∧
      volGet (g_mkcollection c v n user).vol (pathOf n) = some [] ∧
      (g_mkcollection (g_mkcollection c v n user).cache
          (g_mkcollection c v n user).vol n u2).res = .ok (false, none)) ∧
    (volExists v (pathOf n) = false → cacheGet c (pathOf n) = none →
      volDenied v (pathOf n) = true →
      (g_mkcollection c v n user).res = .ok (false, some "PermissionError") ∧
      (g_mkcollection c v n user).vol = v) ∧
    (volExists v (pathOf n) = false → cacheGet c (pathOf n) = none →
      volDenied v (pathOf n) = true →
      (lfs_mkcollection c v n user).res = .error .permError) ∧
    (volExists v (pathOf n) = false → cacheGet c (pathOf n) = none →
      volDenied v (pathOf n) = false →
      (lfs_mkcollection c v n user).res = .ok true) ∧
    (volExists v (pathOf n) = true →
      (lfs_mkcollection c v n user).res = .ok false) := by
  refine ⟨?_, ?_, ?_, ?_, ?_, ?_⟩
  · intro hE
    unfold g_mkcollection
    simp [hE]
  · intro hE hN hD
    have hLk : wd_is_locked c (pathOf n) = false := by
      simp [wd_is_locked, hN]
    have hstep : g_mkcollection c v n user
        = ⟨.ok (true, none), c, volSetFile v (pathOf n) [],
            [Ev.ioR (pathOf n), Ev.acq (rKey (pathOf n)),
              Ev.acq (wKey (pathOf n)), Ev.ioW (pathOf n),
              Ev.rel (wKey (pathOf n)), Ev.rel (rKey (pathOf n))]⟩ := by
      unfold g_mkcollection
      simp [hE, hLk, hN, hD, wd_lock, wd_unlock, pyTruthy]
    refine ⟨by rw [hstep], by rw [hstep]; exact volGet_set_self v _ _, ?_⟩
    rw [hstep]
    have hE2 : volExists (volSetFile v (pathOf n) []) (pathOf n) = true := by
      simp [volExists, volGet_set_self]
    unfold g_mkcollection
    simp [hE2]
  · intro hE hN hD
    have hLk : wd_is_locked c (pathOf n) = false := by
      simp [wd_is_locked, hN]
    unfold g_mkcollection
    simp [hE, hLk, hN, hD, wd_lock, wd_unlock, pyTruthy]
  · intro hE hN hD
    have hLk : wd_is_locked c (pathOf n) = false := by
      simp [wd_is_locked, hN]
    unfold lfs_mkcollection
    simp [hE, hLk, hN, hD, wd_lock, wd_unlock, pyTruthy]
  · intro hE hN hD
    have hLk : wd_is_locked c (pathOf n) = false := by
      simp [wd_is_locked, hN]
    unfold lfs_mkcollection
    simp [hE, hLk, hN, hD, wd_lock, wd_unlock, pyTruthy]
  · intro hE
    unfold lfs_mkcollection
    by_cases hLk : wd_is_locked c (pathOf n) = false <;> simp [hE, hLk]

/-- Witness for the amended C7 theorem: the scenario on a fresh path, the
captured error detail on a creation-denied path, and the propagated
exception of the local variant at the same input. -/
theorem claim_C7_witness :
    (g_mkcollection [] v0 "docs" "alice").res = .ok (true, none) ∧
    (g_mkcollection (g_mkcollection [] v0 "docs" "alice").cache
        (g_mkcollection [] v0 "docs" "alice").vol "docs" "bob").res
      = .ok (false, none) ∧
    (g_mkcollection [] ⟨[], ["/m"], [pathOf "docs"]⟩ "docs" "alice").res
      = .ok (false, some "PermissionError") ∧
    (lfs_mkcollection [] ⟨[], ["/m"], [pathOf "docs"]⟩ "docs" "alice").res
      = .error .permError := by
  obtain ⟨g1, g2, g3, l1, l2, l3⟩ :=
    claim_C7_mkcollection [] v0 "docs" "alice" "bob"
  obtain ⟨g1', g2', g3', l1', l2', l3'⟩ := claim_C7_mkcollection []
    ⟨[], ["/m"], [pathOf "docs"]⟩ "docs" "alice" "bob"
  exact ⟨(g2 rfl rfl rfl).1, (g2 rfl rfl rfl).2.2, (g3' rfl rfl rfl).1,
    l1' rfl rfl rfl⟩

/-- Claim C2: evaluated against the code.  The faithful
`GlusterFSStorage._save` of streamed content raises `AttributeError` at
the undefined `self.OS_OPEN_FLAGS` before touching the volume (first
conjunct), and `LocalFileStorage.save` of raw bytes creates the file yet
returns `None` — no success indication, no stored name (fifth and sixth
conjuncts) — so the claim fails on the code as written.  With the
undefined references repaired as the spec directs (`gfs_save_fixed`), the
claimed contract holds: the first save of `report.txt` returns
`(True, "report.txt")`, the immediate second save of the same requested
name returns `(True, "report_1.txt")` via the available-name retry, and
the original content is unchanged (second to fourth conjuncts).  The
faithful code's temporary-file branch — its one working create path —
also disambiguates exactly as claimed (last two conjuncts). -/
theorem claim_C2_save_contract :
    (gfs_save [] v0 "report.txt" (Content.chunked helloB) 6).res
      = .error .attrError ∧
    save1fx.res = .ok (true, some "report.txt") ∧
    (save2fx.res = .ok (true, some "report_1.txt") ∧
      volGet save2fx.vol (pathOf "report.txt") = some helloB ∧
      volGet save2fx.vol (pathOf "report_1.txt") = some worldB) ∧
    volGet save1fx.vol (pathOf "report.txt") = some helloB ∧
    (lfs_save [] v0 "report.txt" (Content.bytes helloB) 6).res = .ok none ∧
    volGet (lfs_save [] v0 "report.txt" (Content.bytes helloB) 6).vol
      (pathOf "report.txt") = some helloB ∧
    saveLeak.res = .ok (true, some "report_1.txt") ∧
    volGet saveLeak.vol (pathOf "report.txt") = some helloB := by
  refine ⟨?_, ?_, ⟨?_, ?_, ?_⟩, ?_, ?_, ?_, ?_, ?_⟩ <;> rfl
